import Mathlib

/-!
Verification development for the Jarvis goal-scheduling core
(`src/goalsManager.js`, with `src/configManager.js` and `src/server.js` as
collaborators).

Modelling conventions (shallow embedding of the JavaScript source):

* Times of day are minutes since midnight, as `Int`.  The source stores
  `"HH:MM"` strings in the config and converts them with `timeToMinutes`
  at the boundary (the spec notes the scheduler assumes well-formed
  config).  The string codec itself (`timeToMinutes` / `minutesToTime`)
  is embedded over `List Char` and verified to be inverse on the valid
  range, which justifies identifying well-formed time strings with their
  minute values everywhere else.
* ISO `"YYYY-MM-DD"` date strings are modelled as whole-day indices
  (`Int`).  On well-formed ISO strings, JavaScript's lexicographic
  string comparison coincides with the numeric order of the day index,
  and `getDaysSince` (millisecond difference of midnight-normalised
  dates divided by 86 400 000, floored) is exactly the difference of day
  indices.
* Today's weekday name (`toLocaleDateString("en-US", {weekday:"long"})`)
  is passed as an explicit `String` parameter.
* JavaScript numbers that can be `NaN`/`undefined` along the modelled
  paths are `Option Int` (`none` = `NaN`/`undefined`); arithmetic on
  them propagates `none` the way JS propagates `NaN`.  The fractional
  computation `Math.round((a/b)*100)` is modelled bit-exactly: every
  binary64 value is a rational, so the quotient and the product are
  each followed by an explicit round-to-nearest-even step
  (`roundDouble` below), and `Math.round` is, per the ECMAScript spec,
  exact half-up rounding of the mathematical value of its double
  argument.  Integer counts are assumed within the exactly
  representable range `|n| ≤ 2^53`, consistent with modelling them as
  `Int` throughout.
* The persistence layer (`loadGoals`/`saveGoals`, JSON files) is out of
  scope per the spec; `completeTask`/`updateGoal` are modelled as pure
  functions on the loaded goal list, returning `none` where the source
  returns `false` without saving.
* Entry records keep the numeric `startM`/`endM` minute values that the
  source renders with `formatTime` into display strings; the
  nondeterministic display `id` fields (`Date.now() + Math.random()`,
  `"block_" + name`) are omitted.
-/

/-- ISO date, as a whole-day index (see the header comment). -/
abbrev ISODate := Int

/-- `goal.metric` sub-record.  `streak`, `progressPercentage` and
`expectedCompletions` are `Option Int` because `calculateStreak` /
`calculateProgress` can produce `undefined`/`NaN` for unknown
frequencies, and `completeTask` stores their results back. -/
structure Metric where
  dailyMinutes : Int
  completed : Int
  expectedCompletions : Option Int
  progressPercentage : Option Int
  streak : Option Int
  lastCompleted : Option ISODate
deriving DecidableEq

structure Goal where
  id : Int
  description : String
  frequency : String
  weekDay : Option String
  targetDate : ISODate
  priority : String
  createdDate : ISODate
  metric : Metric
deriving DecidableEq

/-- A configured fixed block.  `startTime`/`endTime` are the minute
values of the stored `"HH:MM"` strings (converted by `timeToMinutes` in
`prepareFixedBlocks`).  `recurring` is the legacy boolean field. -/
structure FixedBlock where
  name : String
  startTime : Int
  endTime : Int
  recurrence : String
  weekDay : Option String
  date : Option ISODate
  recurring : Option Bool
deriving DecidableEq

structure Config where
  startTime : Int
  availableHours : Int
  fixedBlocks : List FixedBlock
deriving DecidableEq

/-- Output of `prepareFixedBlocks`: `{name, start, end, isFixed}` in the
source; `stop` stands for the source's `end` (a Lean keyword). -/
structure PreparedBlock where
  name : String
  start : Int
  stop : Int
deriving DecidableEq

/-- One entry of the generated schedule: either a task (part) or a fixed
block.  `startM`/`endM` are the minute values rendered by `formatTime`
in the source.  Fields absent on one of the two JS record shapes
(`goalId`, `isPart`, `completed` on fixed blocks; `isFixed` on tasks)
default to `none`/`false`, matching JS `undefined` being falsy. -/
structure ScheduleEntry where
  goalId : Option Int
  description : String
  startM : Int
  endM : Int
  duration : Int
  priority : String
  completed : Bool
  isFixed : Bool
  isPart : Bool
deriving DecidableEq

/-- Buffer time between tasks (`BUFFER_MINUTES = 10`). -/
def BUFFER_MINUTES : Int := 10

-- ============================================================
-- Time utilities (Section 4 of goalsManager.js), over `List Char`
-- ============================================================

/-- The decimal digit character for `n < 10`. -/
def digitChar (n : Nat) : Char := Char.ofNat (48 + n)

/-- Decimal rendering of a natural number (JS `Number.prototype.toString`). -/
def natDigits (n : Nat) : List Char :=
  if _h : n < 10 then [digitChar n] else natDigits (n / 10) ++ [digitChar (n % 10)]
termination_by n
decreasing_by
  simp_wf
  omega

/-- Decimal rendering of an integer. -/
def intDigits (n : Int) : List Char :=
  if n < 0 then '-' :: natDigits (-n).toNat else natDigits n.toNat

/-- JS `.padStart(2, '0')`. -/
def padTwo (s : List Char) : List Char :=
  if 2 ≤ s.length then s else List.replicate (2 - s.length) '0' ++ s

/-- Membership of a character in the regex class `[0-9]`. -/
def isDigitChar (c : Char) : Bool := 48 ≤ c.toNat && c.toNat ≤ 57

/-- JS `Number(s)` restricted to the inputs arising here: a nonempty
all-digit string parses to its decimal value, anything else is `NaN`
(`none`).  (The full JS `Number` also accepts signs, decimals and
whitespace; those shapes never reach `timeToMinutes` from well-formed
`"HH:MM"` data, which is all the claims quantify over.) -/
def jsNumber (s : List Char) : Option Int :=
  if s ≠ [] ∧ s.all isDigitChar then
    some (s.foldl (fun a c => 10 * a + ((c.toNat : Int) - 48)) 0)
  else none

/-- JS `String.prototype.split(sep)` for a one-character separator. -/
def splitOnChar (sep : Char) : List Char → List (List Char)
  | [] => [[]]
  | c :: cs =>
    if c = sep then [] :: splitOnChar sep cs
    else
      match splitOnChar sep cs with
      | [] => [[c]]
      | t :: ts => (c :: t) :: ts

/-- `timeToMinutes`: parses `"HH:MM"` to minutes since midnight.
`none` models the `NaN` the source produces on malformed input. -/
def timeToMinutes (s : List Char) : Option Int :=
  match (splitOnChar ':' s).map jsNumber with
  | some hours :: some minutes :: _ => some (hours * 60 + minutes)
  | _ => none

/-- `minutesToTime`: minutes since midnight to a `"HH:MM"` string.
`Math.floor(m/60)` and JS `m % 60` agree with `Int` `/`/`%` on the
nonnegative inputs this is used with. -/
def minutesToTime (minutes : Int) : List Char :=
  let hours := minutes / 60
  let mins := minutes % 60
  padTwo (intDigits hours) ++ ':' :: padTwo (intDigits mins)

/-- `formatTime`: 12-hour `h:mm AM/PM` display string. -/
def formatTime (minutes : Int) : List Char :=
  let hours := minutes / 60
  let mins := minutes % 60
  let period := if 12 ≤ hours then ['P', 'M'] else ['A', 'M']
  let displayHour := if hours % 12 = 0 then 12 else hours % 12
  intDigits displayHour ++ ':' :: (padTwo (intDigits mins) ++ ' ' :: period)

/-- `configManager.isValidTimeFormat`: the regex
`^([0-1][0-9]|2[0-3]):[0-5][0-9]$`, character classes expressed by code
ranges. -/
def isValidTimeFormat : List Char → Bool
  | [h1, h2, sep, m1, m2] =>
    (sep = ':' : Bool) &&
      ((((h1.toNat = 48 || h1.toNat = 49) && isDigitChar h2) ||
        (h1.toNat = 50 && (48 ≤ h2.toNat && h2.toNat ≤ 51)))) &&
      (48 ≤ m1.toNat && m1.toNat ≤ 53) && isDigitChar m2
  | _ => false

-- ============================================================
-- Section 2 of goalsManager.js: schedule generation
-- ============================================================

/-- `shouldGenerateTaskToday`: whether a goal produces a task today.
`todayDate` is today's ISO date, `dayName` today's weekday name. -/
def shouldGenerateTaskToday (goal : Goal) (todayDate : ISODate) (dayName : String) : Bool :=
  if goal.metric.lastCompleted = some todayDate then false
  else if goal.frequency = "daily" then decide (todayDate ≤ goal.targetDate)
  else if goal.frequency = "weekly" && goal.weekDay = some dayName then
    decide (todayDate ≤ goal.targetDate)
  else if goal.frequency = "one-time" then decide (goal.targetDate ≤ todayDate)
  else false

/-- `createTask`: build a task entry from a goal. -/
def createTask (goal : Goal) (startTime duration : Int) (partNumber : Nat) : ScheduleEntry :=
  { goalId := some goal.id
    description :=
      if 1 < partNumber then
        goal.description ++ " (Part " ++ toString partNumber ++ ")"
      else goal.description
    startM := startTime
    endM := startTime + duration
    duration := duration
    priority := goal.priority
    completed := false
    isFixed := false
    isPart := 1 < partNumber }

/-- `createFixedBlockEntry`: a fixed block as a schedule entry. -/
def createFixedBlockEntry (block : PreparedBlock) : ScheduleEntry :=
  { goalId := none
    description := "🔒 " ++ block.name
    startM := block.start
    endM := block.stop
    duration := block.stop - block.start
    priority := "FIXED"
    completed := false
    isFixed := true
    isPart := false }

/-- The filter of `prepareFixedBlocks`: is the block active today? -/
def blockActiveToday (block : FixedBlock) (todayDate : ISODate) (todayDayName : String) : Bool :=
  match block.recurring with
  | some flag => flag
  | none =>
    if block.recurrence = "daily" then true
    else if block.recurrence = "weekly" then decide (block.weekDay = some todayDayName)
    else if block.recurrence = "one-time" then decide (block.date = some todayDate)
    else false

/-- `prepareFixedBlocks`: today's active blocks in minutes, sorted by
start (JS `sort` is stable; `insertionSort` is a stable sort realising
the comparator `(a, b) => a.start - b.start`). -/
def prepareFixedBlocks (config : Config) (todayDate : ISODate) (todayDayName : String) :
    List PreparedBlock :=
  List.insertionSort (fun a b => a.start ≤ b.start)
    ((config.fixedBlocks.filter
        (fun block => blockActiveToday block todayDate todayDayName)).map
      (fun block => { name := block.name, start := block.startTime, stop := block.endTime }))

/-- `priorityOrder` lookup table; `none` models an absent key. -/
def priorityOrder (p : String) : Option Int :=
  if p = "high" then some 3 else if p = "medium" then some 2
  else if p = "low" then some 1 else none

/-- The comparator of `sortGoalsByPriorityAndDuration`.  When exactly
one priority is unknown the JS comparator returns `NaN`, which the sort
specification coerces to `0`. -/
def goalCompare (a b : Goal) : Int :=
  match priorityOrder b.priority, priorityOrder a.priority with
  | some pb, some pa =>
    if pb = pa then b.metric.dailyMinutes - a.metric.dailyMinutes else pb - pa
  | none, none => b.metric.dailyMinutes - a.metric.dailyMinutes
  | _, _ => 0

/-- `sortGoalsByPriorityAndDuration` (stable, as JS `Array.sort`). -/
def sortGoalsByPriorityAndDuration (goals : List Goal) : List Goal :=
  List.insertionSort (fun a b => goalCompare a b ≤ 0) goals

/-- The `fixedBlocks.find(...)` call in `scheduleGoalWithSplitting`. -/
def findOverlapping (blocks : List PreparedBlock) (currentTime proposedEnd : Int) :
    Option PreparedBlock :=
  blocks.find? (fun block => decide (currentTime < block.stop ∧ block.start ≤ proposedEnd))

/-- Result record of `scheduleGoalWithSplitting`; `schedule` is the
shared array the source pushes into. -/
structure SplitResult where
  newCurrentTime : Int
  minutesScheduled : Int
  schedule : List ScheduleEntry
deriving DecidableEq

/-- The `while (remainingDuration > 0)` loop of
`scheduleGoalWithSplitting`, with explicit fuel.  Each iteration either
ends the loop or moves `currentTime` past the end of a block that can
then never be selected again, so `blocks.length + 1` fuel always
suffices (proved below); `none` models running out of fuel. -/
def scheduleLoop (goal : Goal) (blocks : List PreparedBlock) :
    Nat → Int → Int → Nat → Int → List ScheduleEntry → Option SplitResult
  | 0, remainingDuration, currentTime, _, totalScheduled, schedule =>
    if 0 < remainingDuration then none
    else some ⟨currentTime, totalScheduled, schedule⟩
  | fuel + 1, remainingDuration, currentTime, partNumber, totalScheduled, schedule =>
    if 0 < remainingDuration then
      let proposedEnd := currentTime + remainingDuration
      match findOverlapping blocks currentTime proposedEnd with
      | some overlappingBlock =>
        let timeBeforeBlock := overlappingBlock.start - currentTime
        if 0 < timeBeforeBlock then
          scheduleLoop goal blocks fuel (remainingDuration - timeBeforeBlock)
            overlappingBlock.stop (partNumber + 1) (totalScheduled + timeBeforeBlock)
            ((schedule ++ [createTask goal currentTime timeBeforeBlock partNumber]) ++
              [createFixedBlockEntry overlappingBlock])
        else
          scheduleLoop goal blocks fuel remainingDuration overlappingBlock.stop
            partNumber totalScheduled (schedule ++ [createFixedBlockEntry overlappingBlock])
      | none =>
        some ⟨currentTime + remainingDuration + BUFFER_MINUTES,
          totalScheduled + remainingDuration,
          schedule ++ [createTask goal currentTime remainingDuration partNumber]⟩
    else some ⟨currentTime, totalScheduled, schedule⟩

/-- `scheduleGoalWithSplitting(goal, currentTime, fixedBlocks, schedule)`. -/
def scheduleGoalWithSplitting (goal : Goal) (currentTime : Int)
    (fixedBlocks : List PreparedBlock) (schedule : List ScheduleEntry) : Option SplitResult :=
  scheduleLoop goal fixedBlocks (fixedBlocks.length + 1) goal.metric.dailyMinutes
    currentTime 1 0 schedule

/-- The `for (const goal of sortedGoals)` loop of
`generateTodaysSchedule`: threads the cursor, the shared schedule array
and `totalMinutes` through `scheduleGoalWithSplitting`. -/
def scheduleAll : List Goal → Int → List PreparedBlock → List ScheduleEntry → Int →
    Option (Int × List ScheduleEntry × Int)
  | [], currentTime, _, schedule, totalMinutes => some (currentTime, schedule, totalMinutes)
  | goal :: goals, currentTime, fixedBlocks, schedule, totalMinutes =>
    match scheduleGoalWithSplitting goal currentTime fixedBlocks schedule with
    | none => none
    | some res =>
      scheduleAll goals res.newCurrentTime fixedBlocks res.schedule
        (totalMinutes + res.minutesScheduled)

/-- Return record of `generateTodaysSchedule`.  `startTime` and
`endTime` are minute values (the source renders `config.startTime`
verbatim and `formatTime(currentTime - BUFFER_MINUTES)`). -/
structure ScheduleResult where
  tasks : List ScheduleEntry
  startTime : Int
  endTime : Int
  totalMinutes : Int
  availableMinutes : Int
  overcommitted : Bool
deriving DecidableEq

/-- `generateTodaysSchedule(goals)` with the config and the evaluation
date made explicit.  `none` never actually occurs (fuel sufficiency is
proved below). -/
def generateTodaysSchedule (goals : List Goal) (config : Config) (todayDate : ISODate)
    (dayName : String) : Option ScheduleResult :=
  let startTimeMinutes := config.startTime
  let availableMinutes := config.availableHours * 60
  let fixedBlocks := prepareFixedBlocks config todayDate dayName
  let tasksNeeded := goals.filter (fun goal => shouldGenerateTaskToday goal todayDate dayName)
  let sortedGoals := sortGoalsByPriorityAndDuration tasksNeeded
  match scheduleAll sortedGoals startTimeMinutes fixedBlocks [] 0 with
  | none => none
  | some (currentTime, schedule, totalMinutes) =>
    some
      { tasks := schedule
        startTime := config.startTime
        endTime := currentTime - BUFFER_MINUTES
        totalMinutes := totalMinutes
        availableMinutes := availableMinutes
        overcommitted := decide (availableMinutes < totalMinutes) }

-- ============================================================
-- Section 3 of goalsManager.js: task completion & progress
-- ============================================================

/-- `getDaysSince`: full calendar days between two ISO dates.  On
day-index dates, the source's midnight normalisation and floored
millisecond division are exactly this difference. -/
def getDaysSince (lastCompleted todayDate : ISODate) : Int :=
  todayDate - lastCompleted

/-- JS `Math.round` (half toward `+∞`): per the ECMAScript spec this
rounds the mathematical value of its (double) argument, so on the
rational carried by a binary64 value it is exactly `⌊x + 1/2⌋`. -/
def mathRound (x : ℚ) : Int := ⌊x + 1 / 2⌋

/-- Round a positive rational to the nearest IEEE-754 binary64 value
(53-bit significand, round to nearest, ties to even).  `Int.log 2 q` is
`⌊log₂ q⌋`, so `s = q · 2 ^ (52 - ⌊log₂ q⌋)` scales `q` into
`[2^52, 2^53)`; `s` is rounded to an integer significand (ties to the
even neighbour) and scaled back.  The quantities arising here are far
inside the normal range, so overflow and subnormals do not occur. -/
def roundPos53 (q : ℚ) : ℚ :=
  let k := Int.log 2 q
  let s := q * (2 : ℚ) ^ (52 - k)
  let f := ⌊s⌋
  let n : Int :=
    if s - f < 1 / 2 then f
    else if (1 : ℚ) / 2 < s - f then f + 1
    else if f % 2 = 0 then f else f + 1
  (n : ℚ) * (2 : ℚ) ^ (k - 52)

/-- Round any rational to the nearest binary64 value. -/
def roundDouble (q : ℚ) : ℚ :=
  if q = 0 then 0 else if 0 < q then roundPos53 q else -roundPos53 (-q)

/-- JS double division: exact quotient, then one binary64 rounding.
(The divisors reaching this in `calculateProgress` are `max(1, …) ≥ 1`,
so the JS `x/0 = Infinity` case is out of range.) -/
def jsDiv (a b : ℚ) : ℚ := roundDouble (a / b)

/-- JS double multiplication: exact product, then one binary64
rounding. -/
def jsMul (a b : ℚ) : ℚ := roundDouble (a * b)

/-- Return record of `calculateProgress`. -/
structure ProgressResult where
  progressPercentage : Option Int
  expectedCompletions : Option Int
deriving DecidableEq

/-- `calculateProgress(goal)`, with today's date explicit.  The
source's `Math.round((actualCompletions / expectedCompletions) * 100)`
runs in binary64, so the quotient and the product each pass through
`roundDouble`; at exact half-ties the double falls below the tie and
rounds down (e.g. `completed = 23`, `expected = 40` gives 57, not 58).
For a frequency other than the three known ones the source leaves
`expectedCompletions` `undefined` and the percentage becomes `NaN`
(`none` here). -/
def calculateProgress (goal : Goal) (todayDate : ISODate) : ProgressResult :=
  if goal.frequency = "one-time" then
    { progressPercentage := some (if 0 < goal.metric.completed then 100 else 0)
      expectedCompletions := some 1 }
  else
    let daysSinceCreated := getDaysSince goal.createdDate todayDate
    let expectedCompletions : Option Int :=
      if goal.frequency = "daily" then some (max 1 daysSinceCreated)
      else if goal.frequency = "weekly" then some (max 1 (daysSinceCreated / 7))
      else none
    let percentage :=
      expectedCompletions.map
        (fun e => mathRound (jsMul (jsDiv (goal.metric.completed : ℚ) (e : ℚ)) 100))
    { progressPercentage := percentage.map (fun p => min p 100)
      expectedCompletions := expectedCompletions }

/-- `calculateStreak(goal, todayString)`.  The final `none` models the
`undefined` the source returns when a goal with a recorded completion
has a frequency other than the three known ones; `streak.map (· + 1)`
models `goal.metric.streak + 1` (`NaN` if `streak` is undefined). -/
def calculateStreak (goal : Goal) (todayDate : ISODate) : Option Int :=
  if goal.frequency = "one-time" then some 0
  else
    match goal.metric.lastCompleted with
    | none => some 1
    | some lastCompleted =>
      let daysSinceLastCompleted := getDaysSince lastCompleted todayDate
      if goal.frequency = "daily" then
        if daysSinceLastCompleted ≤ 1 then goal.metric.streak.map (· + 1) else some 1
      else if goal.frequency = "weekly" then
        if daysSinceLastCompleted / 7 ≤ 1 then goal.metric.streak.map (· + 1) else some 1
      else none

/-- `updateGoal(goalId, updates)` on the loaded goal list, specialised
to the metric-replacing update `completeTask` performs (`{...goal,
...updates}` with `updates = {metric}` replaces the whole metric).
Replaces the first goal whose `id` matches (`findIndex`); `none` models
the `false` returned when no goal matches. -/
def updateGoal : List Goal → Int → Metric → Option (List Goal)
  | [], _, _ => none
  | goal :: goals, goalId, newMetric =>
    if goal.id = goalId then some ({ goal with metric := newMetric } :: goals)
    else (updateGoal goals goalId newMetric).map (goal :: ·)

/-- `completeTask(goalId)` on the loaded goal list, with today's date
explicit.  Mirrors the source: find the goal, recompute progress on the
post-increment completed count and the streak on the pre-update goal,
then write all metric fields together via `updateGoal`. -/
def completeTask (goals : List Goal) (goalId : Int) (todayDate : ISODate) :
    Option (List Goal) :=
  match goals.find? (fun goal => goal.id = goalId) with
  | none => none
  | some goal =>
    let updatedGoal : Goal :=
      { goal with metric := { goal.metric with completed := goal.metric.completed + 1 } }
    let progress := calculateProgress updatedGoal todayDate
    let streak := calculateStreak goal todayDate
    updateGoal goals goalId
      { goal.metric with
        completed := goal.metric.completed + 1
        lastCompleted := some todayDate
        streak := streak
        progressPercentage := progress.progressPercentage
        expectedCompletions := progress.expectedCompletions }

-- ============================================================
-- Module surface (for the skip-route wiring, src/server.js)
-- ============================================================

/-- The names exported by `module.exports` at the end of
`src/goalsManager.js`. -/
def goalsManagerExports : List String :=
  ["loadGoals", "saveGoals", "addGoal", "deleteGoal", "updateGoal",
   "shouldGenerateTaskToday", "generateTodaysSchedule",
   "completeTask", "calculateProgress", "calculateStreak",
   "formatTime", "timeToMinutes", "minutesToTime"]

/-- The names `src/server.js` destructures from
`require('./src/goalsManager')`. -/
def serverGoalsManagerImports : List String :=
  ["loadGoals", "generateTodaysSchedule", "completeTask", "skipTask", "addGoal"]

-- ============================================================
-- Properties under verification
-- ============================================================

/-- Sum of the durations of the task entries of a schedule segment,
fixed-block entries excluded. -/
def taskMinutes (entries : List ScheduleEntry) : Int :=
  ((entries.filter (fun e => !e.isFixed)).map (fun e => e.duration)).sum

/-- Consecutive (and hence all later) entries start no earlier than
every earlier entry ends. -/
def entriesOrdered (entries : List ScheduleEntry) : Prop :=
  entries.Pairwise (fun a b => a.endM ≤ b.startM)

/-- Every entry has a positive extent. -/
def entriesPositive (entries : List ScheduleEntry) : Prop :=
  ∀ e ∈ entries, e.startM < e.endM

/-- Claim C1's conclusion: any two distinct entries `a`, `b` with
`a.start ≤ b.start` satisfy `a.end ≤ b.start` (pairwise non-overlapping
and sorted ascending by start time). -/
def noOverlapSorted (entries : List ScheduleEntry) : Prop :=
  ∀ (i j : Nat) (hi : i < entries.length) (hj : j < entries.length), i ≠ j →
    (entries.get ⟨i, hi⟩).startM ≤ (entries.get ⟨j, hj⟩).startM →
    (entries.get ⟨i, hi⟩).endM ≤ (entries.get ⟨j, hj⟩).startM

/-- Claim C1 as stated, at a given input: if every fixed block of the
config individually satisfies `startTime < endTime`, the generated
schedule is pairwise non-overlapping and sorted. -/
def C1Property (goals : List Goal) (config : Config) (todayDate : ISODate)
    (dayName : String) : Prop :=
  (∀ b ∈ config.fixedBlocks, b.startTime < b.endTime) →
  ∀ r, generateTodaysSchedule goals config todayDate dayName = some r →
    noOverlapSorted r.tasks

/-- The scheduling invariant threaded through the cursor/schedule state:
emitted entries are chain-ordered, have positive extent, end at or
before the cursor, and end at or before the start of every still-active
block (one whose end lies past the cursor). -/
def SchedInv (blocks : List PreparedBlock) (entries : List ScheduleEntry) (cur : Int) : Prop :=
  entriesOrdered entries ∧ entriesPositive entries ∧ (∀ e ∈ entries, e.endM ≤ cur) ∧
    (∀ b ∈ blocks, cur < b.stop → ∀ e ∈ entries, e.endM ≤ b.start)

/-- Hypotheses of the amended C1 on the prepared block list: each block
is non-degenerate and the blocks are pairwise disjoint. -/
def blocksWF (blocks : List PreparedBlock) : Prop :=
  (∀ b ∈ blocks, b.start < b.stop) ∧
    blocks.Pairwise (fun a b => a.stop ≤ b.start ∨ b.stop ≤ a.start)

/-- The claim's clause "for every goal with null `lastCompleted`,
`calculateStreak` returns 1", as a universally quantified statement. -/
def streakNullClause : Prop :=
  ∀ (goal : Goal) (todayDate : ISODate),
    goal.metric.lastCompleted = none → calculateStreak goal todayDate = some 1

-- ============================================================
-- Test fixtures (concrete data for witnesses and counterexamples)
-- ============================================================

/-- A daily high-priority goal, 300 planned minutes, never completed. -/
def sampleGoal : Goal :=
  ⟨1, "study", "daily", none, 30000, "high", 19990, ⟨300, 0, none, none, some 2, none⟩⟩

/-- A one-time goal that has never been completed. -/
def oneTimeGoal : Goal :=
  ⟨2, "dentist", "one-time", none, 19990, "medium", 19980, ⟨30, 0, none, none, some 0, none⟩⟩

/-- A daily goal last completed yesterday (day 19999), streak 2. -/
def streakGoal : Goal :=
  ⟨3, "run", "daily", none, 30000, "low", 19990, ⟨45, 6, none, none, some 2, some 19999⟩⟩

/-- A daily goal last completed two days ago (day 19998), streak 2. -/
def staleStreakGoal : Goal :=
  ⟨4, "read", "daily", none, 30000, "low", 19990, ⟨45, 6, none, none, some 2, some 19998⟩⟩

/-- A daily goal with one completion, created ten days before day 20000. -/
def progressGoal : Goal :=
  ⟨5, "write", "daily", none, 30000, "medium", 19990, ⟨60, 1, none, none, some 1, none⟩⟩

/-- Two daily fixed blocks that overlap each other (10:00–11:40 and
10:50–12:00), each individually well-formed (start < end). -/
def overlapBlockA : FixedBlock := ⟨"A", 600, 700, "daily", none, none, none⟩

def overlapBlockB : FixedBlock := ⟨"B", 650, 720, "daily", none, none, none⟩

def overlapConfig : Config := ⟨540, 8, [overlapBlockA, overlapBlockB]⟩

/-- A daily goal created 40 days before day 20000 with 23 completions:
the percentage (23/40)*100 is an exact half-tie (57.5) that binary64
arithmetic computes as 57.49999999999999289…, which rounds to 57. -/
def tieGoal : Goal :=
  ⟨7, "tie", "daily", none, 30000, "medium", 19960, ⟨60, 23, none, none, some 1, none⟩⟩

/-- A daily goal already completed today (day 20000). -/
def doneGoal : Goal :=
  ⟨6, "done", "daily", none, 30000, "high", 19990, ⟨60, 1, none, none, some 1, some 20000⟩⟩

/-- A single daily lunch block 12:00–13:00. -/
def lunchBlock : FixedBlock := ⟨"Lunch", 720, 780, "daily", none, none, none⟩

def lunchConfig : Config := ⟨540, 8, [lunchBlock]⟩

-- ============================================================
-- C8: the skip operation
-- ============================================================

/-- C8: the system does **not** provide a working `skipTask` operation:
`src/server.js` destructures `skipTask` from `require('./src/goalsManager')`,
but `module.exports` of `src/goalsManager.js` exports no such name (and the
file defines no such function), so the route handler calls `undefined` and
every `POST /api/goals/:id/skip` request fails. -/
theorem skipTask_not_exported :
    "skipTask" ∈ serverGoalsManagerImports ∧ "skipTask" ∉ goalsManagerExports := by
  decide

-- ============================================================
-- C3: the eligibility filter
-- ============================================================

/-- C3: `shouldGenerateTaskToday` returns `false` when the goal was
already completed today, and otherwise decides eligibility by frequency:
daily — today ≤ target date; weekly — weekday matches **and** today ≤
target date; one-time — target date ≤ today (with no check of
`completed`, which the formula on the right does not mention); any other
frequency — `false`. -/
theorem shouldGenerateTaskToday_spec (goal : Goal) (todayDate : ISODate) (dayName : String) :
    shouldGenerateTaskToday goal todayDate dayName =
      if goal.metric.lastCompleted = some todayDate then false
      else if goal.frequency = "daily" then decide (todayDate ≤ goal.targetDate)
      else if goal.frequency = "weekly" then
        decide (goal.weekDay = some dayName) && decide (todayDate ≤ goal.targetDate)
      else if goal.frequency = "one-time" then decide (goal.targetDate ≤ todayDate)
      else false := by
  unfold shouldGenerateTaskToday
  by_cases h1 : goal.metric.lastCompleted = some todayDate
  · simp [h1]
  · by_cases h2 : goal.frequency = "daily"
    · simp [h1, h2]
    · by_cases h3 : goal.frequency = "weekly"
      · have h5 : goal.frequency ≠ "one-time" := by rw [h3]; decide
        by_cases h4 : goal.weekDay = some dayName
        · simp [h1, h2, h3, h4]
        · simp [h1, h2, h3, h4, h5]
      · simp [h1, h2, h3]

-- ============================================================
-- C5: calculateStreak
-- ============================================================

/-- C5 counterexample: a one-time goal with `lastCompleted = null` gets
streak `0`, not `1` — the one-time branch runs before the null check. -/
theorem calculateStreak_cex :
    oneTimeGoal.metric.lastCompleted = none ∧ calculateStreak oneTimeGoal 20000 = some 0 ∧
      ¬ streakNullClause :=
  ⟨by decide, by decide, fun h => absurd (h oneTimeGoal 20000 (by decide)) (by decide)⟩

/-- C5 (amended): `calculateStreak` returns 0 for every one-time goal;
1 for every **non-one-time** goal with null `lastCompleted`; and for
daily (resp. weekly) goals with a recorded last completion and a numeric
streak, `streak + 1` iff `daysSince ≤ 1` (resp. `⌊daysSince/7⌋ ≤ 1`) and
a reset to 1 otherwise — so `daysSince = 1` continues a daily streak and
`daysSince = 2` resets it. -/
theorem calculateStreak_spec :
    (∀ (goal : Goal) (todayDate : ISODate), goal.frequency = "one-time" →
        calculateStreak goal todayDate = some 0) ∧
    (∀ (goal : Goal) (todayDate : ISODate), goal.frequency ≠ "one-time" →
        goal.metric.lastCompleted = none → calculateStreak goal todayDate = some 1) ∧
    (∀ (goal : Goal) (todayDate : ISODate) (last s : Int), goal.frequency = "daily" →
        goal.metric.lastCompleted = some last → goal.metric.streak = some s →
        calculateStreak goal todayDate =
          if getDaysSince last todayDate ≤ 1 then some (s + 1) else some 1) ∧
    (∀ (goal : Goal) (todayDate : ISODate) (last s : Int), goal.frequency = "weekly" →
        goal.metric.lastCompleted = some last → goal.metric.streak = some s →
        calculateStreak goal todayDate =
          if getDaysSince last todayDate / 7 ≤ 1 then some (s + 1) else some 1) := by
  refine ⟨?_, ?_, ?_, ?_⟩
  · intro goal todayDate h
    simp [calculateStreak, h]
  · intro goal todayDate h hnone
    simp [calculateStreak, h, hnone]
  · intro goal todayDate last s h hlast hs
    have h1 : goal.frequency ≠ "one-time" := by rw [h]; decide
    by_cases hd : getDaysSince last todayDate ≤ 1
    · simp [calculateStreak, h, h1, hlast, hs, hd]
    · simp [calculateStreak, h, h1, hlast, hs, hd]
  · intro goal todayDate last s h hlast hs
    have h1 : goal.frequency ≠ "one-time" := by rw [h]; decide
    have h2 : goal.frequency ≠ "daily" := by rw [h]; decide
    by_cases hd : getDaysSince last todayDate / 7 ≤ 1
    · simp [calculateStreak, h, h1, h2, hlast, hs, hd]
    · simp [calculateStreak, h, h1, h2, hlast, hs, hd]

/-- Witness for the amended C5: the exact daily boundary — last
completed one day ago continues the streak (2 → 3), two days ago resets
it to 1. -/
theorem calculateStreak_spec_witness :
    calculateStreak streakGoal 20000 = some 3 ∧ calculateStreak staleStreakGoal 20000 = some 1 := by
  constructor
  · have h := calculateStreak_spec.2.2.1 streakGoal 20000 19999 2 (by decide) (by decide) (by decide)
    rw [h]; decide
  · have h := calculateStreak_spec.2.2.1 staleStreakGoal 20000 19998 2 (by decide) (by decide) (by decide)
    rw [h]; decide

-- ============================================================
-- C6: calculateProgress
-- ============================================================

/-- `Int.log 2` is determined by the two-sided power bound. -/
theorem intLog2_eq {q : ℚ} {k : ℤ} (h0 : 0 < q) (h1 : (2 : ℚ) ^ k ≤ q)
    (h2 : q < (2 : ℚ) ^ (k + 1)) : Int.log 2 q = k := by
  have e2 : ((2 : ℕ) : ℚ) = (2 : ℚ) := by norm_num
  have ha : k ≤ Int.log 2 q := by
    rw [← Int.zpow_le_iff_le_log (by norm_num) h0, e2]
    exact h1
  have hb : Int.log 2 q < k + 1 := by
    rw [← Int.lt_zpow_iff_log_lt (by norm_num) h0, e2]
    exact h2
  omega

/-- Evaluation of `roundPos53` when the scaled significand rounds
down. -/
theorem roundPos53_eval_down (q : ℚ) (k f : ℤ) (hlog : Int.log 2 q = k)
    (hf : ⌊q * (2 : ℚ) ^ (52 - k)⌋ = f)
    (hlt : q * (2 : ℚ) ^ (52 - k) - (f : ℚ) < 1 / 2) :
    roundPos53 q = (f : ℚ) * (2 : ℚ) ^ (k - 52) := by
  simp only [roundPos53, hlog, hf]
  rw [if_pos hlt]

/-- Evaluation of `roundPos53` when the scaled significand rounds
up. -/
theorem roundPos53_eval_up (q : ℚ) (k f : ℤ) (hlog : Int.log 2 q = k)
    (hf : ⌊q * (2 : ℚ) ^ (52 - k)⌋ = f)
    (hgt : 1 / 2 < q * (2 : ℚ) ^ (52 - k) - (f : ℚ)) :
    roundPos53 q = ((f + 1 : ℤ) : ℚ) * (2 : ℚ) ^ (k - 52) := by
  simp only [roundPos53, hlog, hf]
  rw [if_neg (not_lt.mpr (le_of_lt hgt)), if_pos hgt]

/-- The binary64 quotient `23/40`: the exact value `0.575` is not
representable; the nearest double is `0.57499999999999995559…`. -/
theorem jsDiv_23_40 : jsDiv (23 : ℚ) 40 = 5179139571476070 / 9007199254740992 := by
  simp only [jsDiv, roundDouble]
  rw [if_neg (by norm_num), if_pos (by norm_num)]
  have hlog : Int.log 2 ((23 : ℚ) / 40) = -1 :=
    intLog2_eq (by norm_num) (by norm_num) (by norm_num)
  have hf : ⌊((23 : ℚ) / 40) * (2 : ℚ) ^ (52 - (-1 : ℤ))⌋ = 5179139571476070 := by
    rw [Int.floor_eq_iff]
    norm_num
  rw [roundPos53_eval_down ((23 : ℚ) / 40) (-1) 5179139571476070 hlog hf (by norm_num)]
  norm_num

/-- The binary64 product of that quotient with 100:
`57.49999999999999289…` — strictly below the exact tie `57.5`. -/
theorem jsMul_23_40_100 :
    jsMul (5179139571476070 / 9007199254740992 : ℚ) 100 =
      8092405580431359 / 140737488355328 := by
  simp only [jsMul, roundDouble]
  rw [if_neg (by norm_num), if_pos (by norm_num)]
  have hlog : Int.log 2 ((5179139571476070 / 9007199254740992 : ℚ) * 100) = 5 :=
    intLog2_eq (by norm_num) (by norm_num) (by norm_num)
  have hf : ⌊((5179139571476070 / 9007199254740992 : ℚ) * 100) * (2 : ℚ) ^ (52 - (5 : ℤ))⌋ =
      8092405580431359 := by
    rw [Int.floor_eq_iff]
    norm_num
  rw [roundPos53_eval_down _ 5 8092405580431359 hlog hf (by norm_num)]
  norm_num

/-- The binary64 quotient `1/10` (rounds up to
`0.1000000000000000055511…`). -/
theorem jsDiv_1_10 : jsDiv (1 : ℚ) 10 = 7205759403792794 / 72057594037927936 := by
  simp only [jsDiv, roundDouble]
  rw [if_neg (by norm_num), if_pos (by norm_num)]
  have hlog : Int.log 2 ((1 : ℚ) / 10) = -4 :=
    intLog2_eq (by norm_num) (by norm_num) (by norm_num)
  have hf : ⌊((1 : ℚ) / 10) * (2 : ℚ) ^ (52 - (-4 : ℤ))⌋ = 7205759403792793 := by
    rw [Int.floor_eq_iff]
    norm_num
  rw [roundPos53_eval_up ((1 : ℚ) / 10) (-4) 7205759403792793 hlog hf (by norm_num)]
  norm_num

/-- The binary64 product of the rounded tenth with 100 is exactly 10. -/
theorem jsMul_1_10_100 : jsMul (7205759403792794 / 72057594037927936 : ℚ) 100 = 10 := by
  simp only [jsMul, roundDouble]
  rw [if_neg (by norm_num), if_pos (by norm_num)]
  have hlog : Int.log 2 ((7205759403792794 / 72057594037927936 : ℚ) * 100) = 3 :=
    intLog2_eq (by norm_num) (by norm_num) (by norm_num)
  have hf : ⌊((7205759403792794 / 72057594037927936 : ℚ) * 100) * (2 : ℚ) ^ (52 - (3 : ℤ))⌋ =
      5629499534213120 := by
    rw [Int.floor_eq_iff]
    norm_num
  rw [roundPos53_eval_down _ 3 5629499534213120 hlog hf (by norm_num)]
  norm_num

/-- The daily branch of `calculateProgress`, unfolded. -/
theorem calculateProgress_daily (goal : Goal) (todayDate : ISODate)
    (h : goal.frequency = "daily") :
    calculateProgress goal todayDate =
      ⟨some (min (mathRound (jsMul (jsDiv (goal.metric.completed : ℚ)
          ((max 1 (getDaysSince goal.createdDate todayDate) : Int) : ℚ)) 100)) 100),
        some (max 1 (getDaysSince goal.createdDate todayDate))⟩ := by
  have h1 : goal.frequency ≠ "one-time" := by rw [h]; decide
  simp [calculateProgress, h, h1]

/-- The weekly branch of `calculateProgress`, unfolded. -/
theorem calculateProgress_weekly (goal : Goal) (todayDate : ISODate)
    (h : goal.frequency = "weekly") :
    calculateProgress goal todayDate =
      ⟨some (min (mathRound (jsMul (jsDiv (goal.metric.completed : ℚ)
          ((max 1 (getDaysSince goal.createdDate todayDate / 7) : Int) : ℚ)) 100)) 100),
        some (max 1 (getDaysSince goal.createdDate todayDate / 7))⟩ := by
  have h1 : goal.frequency ≠ "one-time" := by rw [h]; decide
  have h2 : goal.frequency ≠ "daily" := by rw [h]; decide
  simp [calculateProgress, h, h1, h2]

/-- C6 counterexample: for a daily goal created 40 days ago with 23
completions the program computes `(23/40)*100 = 57.49999999999999289…`
in binary64 and `Math.round` gives 57, while the claim's exact formula
`min(100, round(100·23/40)) = min(100, round(57.5))` gives 58. -/
theorem calculateProgress_cex :
    calculateProgress tieGoal 20000 = ⟨some 57, some 40⟩ ∧
    min 100 (mathRound ((100 * tieGoal.metric.completed : ℚ) /
      ((max 1 (getDaysSince tieGoal.createdDate 20000) : Int) : ℚ))) = 58 ∧
    (57 : Int) ≠ 58 := by
  have e1 : max (1 : Int) (getDaysSince tieGoal.createdDate 20000) = 40 := by decide
  have e2 : tieGoal.metric.completed = (23 : Int) := rfl
  refine ⟨?_, ?_, by decide⟩
  · rw [calculateProgress_daily tieGoal 20000 rfl, e1, e2]
    have e3 : ((23 : Int) : ℚ) = (23 : ℚ) := by norm_num
    have e4 : ((40 : Int) : ℚ) = (40 : ℚ) := by norm_num
    rw [e3, e4, jsDiv_23_40, jsMul_23_40_100]
    have e5 : mathRound (8092405580431359 / 140737488355328 : ℚ) = 57 := by
      rw [mathRound, Int.floor_eq_iff]
      norm_num
    rw [e5]
    decide
  · rw [e1, e2]
    have e3 : ((23 : Int) : ℚ) = (23 : ℚ) := by norm_num
    have e4 : ((40 : Int) : ℚ) = (40 : ℚ) := by norm_num
    rw [e3, e4]
    have e5 : mathRound ((100 * (23 : ℚ)) / 40) = 58 := by
      rw [mathRound, Int.floor_eq_iff]
      norm_num
    rw [e5]
    decide

/-- C6 (amended): `calculateProgress` returns `100` iff completed,
expected `1` for one-time goals; `expectedCompletions =
max(1, daysSinceCreated)` for daily and `max(1, ⌊daysSinceCreated/7⌋)`
for weekly goals; and for daily/weekly goals `progressPercentage =
min(100, round((completed/expected)·100))` with the quotient and the
product each computed in IEEE-754 double precision — which at exact
half-ties falls below the tie and rounds down. -/
theorem calculateProgress_spec (goal : Goal) (todayDate : ISODate) :
    (goal.frequency = "one-time" →
      calculateProgress goal todayDate =
        ⟨some (if 0 < goal.metric.completed then 100 else 0), some 1⟩) ∧
    (goal.frequency = "daily" →
      calculateProgress goal todayDate =
        ⟨some (min 100 (mathRound (jsMul (jsDiv (goal.metric.completed : ℚ)
            ((max 1 (getDaysSince goal.createdDate todayDate) : Int) : ℚ)) 100))),
          some (max 1 (getDaysSince goal.createdDate todayDate))⟩) ∧
    (goal.frequency = "weekly" →
      calculateProgress goal todayDate =
        ⟨some (min 100 (mathRound (jsMul (jsDiv (goal.metric.completed : ℚ)
            ((max 1 (getDaysSince goal.createdDate todayDate / 7) : Int) : ℚ)) 100))),
          some (max 1 (getDaysSince goal.createdDate todayDate / 7))⟩) := by
  refine ⟨?_, ?_, ?_⟩
  · intro h
    simp [calculateProgress, h]
  · intro h
    rw [calculateProgress_daily goal todayDate h, min_comm]
  · intro h
    rw [calculateProgress_weekly goal todayDate h, min_comm]

/-- Witness for the amended C6: a daily goal created 10 days ago with
one completion gets `expectedCompletions = 10` and, through the two
double roundings, `progressPercentage = 10` exactly. -/
theorem calculateProgress_spec_witness :
    calculateProgress progressGoal 20000 = ⟨some 10, some 10⟩ := by
  have h := (calculateProgress_spec progressGoal 20000).2.1 (by decide)
  rw [h]
  have hd : max 1 (getDaysSince progressGoal.createdDate 20000) = (10 : Int) := by decide
  have hc : progressGoal.metric.completed = (1 : Int) := rfl
  rw [hd, hc]
  have e3 : ((1 : Int) : ℚ) = (1 : ℚ) := by norm_num
  have e4 : ((10 : Int) : ℚ) = (10 : ℚ) := by norm_num
  rw [e3, e4, jsDiv_1_10, jsMul_1_10_100]
  have e5 : mathRound (10 : ℚ) = 10 := by
    rw [mathRound, Int.floor_eq_iff]
    norm_num
  rw [e5]
  decide

-- ============================================================
-- C4: completeTask
-- ============================================================

/-- `find?` on a goal list returns the first goal with a matching id. -/
theorem find?_id_append (pre : List Goal) (goal : Goal) (post : List Goal)
    (hpre : ∀ g ∈ pre, g.id ≠ goal.id) :
    (pre ++ goal :: post).find? (fun g => g.id = goal.id) = some goal := by
  induction pre with
  | nil => simp
  | cons p pre ih =>
    have hp : ¬ (p.id = goal.id) := hpre p (by simp)
    simp only [List.cons_append]
    rw [List.find?_cons_of_neg _ (by simp [hp])]
    exact ih (fun g hg => hpre g (by simp [hg]))

/-- `updateGoal` replaces the metric of the first goal with a matching
id and leaves every other goal unchanged. -/
theorem updateGoal_append (pre : List Goal) (goal : Goal) (post : List Goal) (m : Metric)
    (hpre : ∀ g ∈ pre, g.id ≠ goal.id) :
    updateGoal (pre ++ goal :: post) goal.id m =
      some (pre ++ { goal with metric := m } :: post) := by
  induction pre with
  | nil => simp [updateGoal]
  | cons p pre ih =>
    have hp : ¬ (p.id = goal.id) := hpre p (by simp)
    simp only [List.cons_append, updateGoal, hp, if_false, List.append_eq]
    rw [ih (fun g hg => hpre g (by simp [hg]))]
    rfl

/-- C4: for a `goalId` matching no stored goal, `completeTask` returns
the failure indicator and no goal list is produced; for the first stored
goal matching `goalId`, it returns the list with exactly that goal's
metric replaced: `completed` incremented by 1, `lastCompleted` set to
today, `streak` set to the `calculateStreak` result, and
`progressPercentage` / `expectedCompletions` recomputed by
`calculateProgress` on the post-increment completed count, all in one
update, with every other goal untouched. -/
theorem completeTask_spec :
    (∀ (goals : List Goal) (goalId : Int) (todayDate : ISODate),
        (∀ g ∈ goals, g.id ≠ goalId) → completeTask goals goalId todayDate = none) ∧
    (∀ (pre : List Goal) (goal : Goal) (post : List Goal) (todayDate : ISODate),
        (∀ g ∈ pre, g.id ≠ goal.id) →
        completeTask (pre ++ goal :: post) goal.id todayDate =
          some (pre ++
            { goal with metric :=
              { dailyMinutes := goal.metric.dailyMinutes
                completed := goal.metric.completed + 1
                expectedCompletions :=
                  (calculateProgress
                    { goal with metric :=
                      { goal.metric with completed := goal.metric.completed + 1 } }
                    todayDate).expectedCompletions
                progressPercentage :=
                  (calculateProgress
                    { goal with metric :=
                      { goal.metric with completed := goal.metric.completed + 1 } }
                    todayDate).progressPercentage
                streak := calculateStreak goal todayDate
                lastCompleted := some todayDate } } :: post)) := by
  constructor
  · intro goals goalId todayDate h
    have hf : goals.find? (fun g => g.id = goalId) = none :=
      List.find?_eq_none.mpr (fun g hg => by simp [h g hg])
    simp [completeTask, hf]
  · intro pre goal post todayDate hpre
    have hf := find?_id_append pre goal post hpre
    simp only [completeTask, hf]
    rw [updateGoal_append pre goal post _ hpre]

/-- Witness for C4: both branches at concrete inputs — an empty store
fails, and a singleton store gets exactly the described update. -/
theorem completeTask_spec_witness :
    completeTask [] 5 20000 = none ∧
    completeTask [sampleGoal] sampleGoal.id 20000 =
      some
        [{ sampleGoal with metric :=
          { dailyMinutes := sampleGoal.metric.dailyMinutes
            completed := sampleGoal.metric.completed + 1
            expectedCompletions :=
              (calculateProgress
                { sampleGoal with metric :=
                  { sampleGoal.metric with completed := sampleGoal.metric.completed + 1 } }
                20000).expectedCompletions
            progressPercentage :=
              (calculateProgress
                { sampleGoal with metric :=
                  { sampleGoal.metric with completed := sampleGoal.metric.completed + 1 } }
                20000).progressPercentage
            streak := calculateStreak sampleGoal 20000
            lastCompleted := some 20000 } }] :=
  ⟨completeTask_spec.1 [] 5 20000 (by simp),
    completeTask_spec.2 [] sampleGoal [] 20000 (by simp)⟩

-- ============================================================
-- C9: the "HH:MM" codec
-- ============================================================

theorem toNat_digitChar (n : Nat) (h : n < 10) : (digitChar n).toNat = 48 + n := by
  interval_cases n <;> decide

theorem digitChar_toNat_eq (c : Char) (h48 : 48 ≤ c.toNat) (h57 : c.toNat ≤ 57) :
    digitChar (c.toNat - 48) = c := by
  have h : 48 + (c.toNat - 48) = c.toNat := by omega
  rw [digitChar, h, Char.ofNat_toNat]

theorem isDigitChar_digitChar (n : Nat) (h : n < 10) : isDigitChar (digitChar n) = true := by
  interval_cases n <;> decide

theorem isDigitChar_ne_colon (c : Char) (h : isDigitChar c = true) : ¬ (c = ':') := by
  intro he
  rw [he] at h
  exact absurd h (by decide)

theorem natDigits_small (n : Nat) (h : n < 10) : natDigits n = [digitChar n] := by
  rw [natDigits]
  simp [h]

theorem padTwo_natDigits (n : Nat) (h : n < 100) :
    padTwo (natDigits n) = [digitChar (n / 10), digitChar (n % 10)] := by
  by_cases h10 : n < 10
  · rw [natDigits_small n h10]
    have e1 : n / 10 = 0 := by omega
    have e2 : n % 10 = n := by omega
    rw [e1, e2]
    rfl
  · rw [natDigits]
    rw [dif_neg h10]
    rw [natDigits_small (n / 10) (by omega)]
    rw [padTwo]
    simp

theorem jsNumber_pair (a b : Char) (ha : isDigitChar a = true) (hb : isDigitChar b = true) :
    jsNumber [a, b] = some (10 * ((a.toNat : Int) - 48) + ((b.toNat : Int) - 48)) := by
  simp [jsNumber, ha, hb]

theorem splitOnChar_pair (a b c d : Char) (ha : ¬ (a = ':')) (hb : ¬ (b = ':'))
    (hc : ¬ (c = ':')) (hd : ¬ (d = ':')) :
    splitOnChar ':' [a, b, ':', c, d] = [[a, b], [c, d]] := by
  simp [splitOnChar, ha, hb, hc, hd]

theorem timeToMinutes_digits (a b c d : Char) (ha : isDigitChar a = true)
    (hb : isDigitChar b = true) (hc : isDigitChar c = true) (hd : isDigitChar d = true) :
    timeToMinutes [a, b, ':', c, d] =
      some ((10 * ((a.toNat : Int) - 48) + ((b.toNat : Int) - 48)) * 60 +
        (10 * ((c.toNat : Int) - 48) + ((d.toNat : Int) - 48))) := by
  rw [timeToMinutes,
    splitOnChar_pair a b c d (isDigitChar_ne_colon a ha) (isDigitChar_ne_colon b hb)
      (isDigitChar_ne_colon c hc) (isDigitChar_ne_colon d hd)]
  simp [jsNumber_pair a b ha hb, jsNumber_pair c d hc hd]

theorem minutesToTime_digits (H M : Int) (hH0 : 0 ≤ H) (hH : H < 100) (hM0 : 0 ≤ M)
    (hM : M < 60) :
    minutesToTime (H * 60 + M) =
      [digitChar (H.toNat / 10), digitChar (H.toNat % 10), ':',
       digitChar (M.toNat / 10), digitChar (M.toNat % 10)] := by
  have e1 : (H * 60 + M) / 60 = H := by omega
  have e2 : (H * 60 + M) % 60 = M := by omega
  simp only [minutesToTime, e1, e2, intDigits, if_neg (by omega : ¬ H < 0),
    if_neg (by omega : ¬ M < 0)]
  rw [padTwo_natDigits H.toNat (by omega), padTwo_natDigits M.toNat (by omega)]
  rfl

/-- C9: the conversions are mutually inverse with no rounding —
`timeToMinutes (minutesToTime m) = m` for every minute count
`0 ≤ m ≤ 1439`, and `minutesToTime (timeToMinutes s) = s` for every
string matching the repo's `"HH:MM"` validation regex. -/
theorem timeToMinutes_minutesToTime_inverse :
    (∀ m : Int, 0 ≤ m → m ≤ 1439 → timeToMinutes (minutesToTime m) = some m) ∧
    (∀ s : List Char, isValidTimeFormat s = true →
      ∃ v, timeToMinutes s = some v ∧ minutesToTime v = s) := by
  constructor
  · intro m h0 h1
    conv_lhs => rw [show m = (m / 60) * 60 + m % 60 from by omega]
    rw [minutesToTime_digits (m / 60) (m % 60) (by omega) (by omega) (by omega) (by omega)]
    rw [timeToMinutes_digits _ _ _ _
      (isDigitChar_digitChar _ (by omega)) (isDigitChar_digitChar _ (by omega))
      (isDigitChar_digitChar _ (by omega)) (isDigitChar_digitChar _ (by omega))]
    congr 1
    rw [toNat_digitChar _ (by omega), toNat_digitChar _ (by omega),
      toNat_digitChar _ (by omega), toNat_digitChar _ (by omega)]
    push_cast
    omega
  · intro s hv
    rcases s with _ | ⟨a, _ | ⟨b, _ | ⟨c, _ | ⟨d, _ | ⟨e, _ | ⟨f, rest⟩⟩⟩⟩⟩⟩
    · simp [isValidTimeFormat] at hv
    · simp [isValidTimeFormat] at hv
    · simp [isValidTimeFormat] at hv
    · simp [isValidTimeFormat] at hv
    · simp [isValidTimeFormat] at hv
    · simp only [isValidTimeFormat, Bool.and_eq_true, Bool.or_eq_true, decide_eq_true_eq,
        isDigitChar] at hv
      obtain ⟨⟨⟨hcolon, hhour⟩, hd1, hd2⟩, he1, he2⟩ := hv
      subst hcolon
      have hA : 48 ≤ a.toNat ∧ a.toNat ≤ 57 := by omega
      have hB : 48 ≤ b.toNat ∧ b.toNat ≤ 57 := by omega
      have hD : 48 ≤ d.toNat ∧ d.toNat ≤ 53 := ⟨hd1, hd2⟩
      have hE : 48 ≤ e.toNat ∧ e.toNat ≤ 57 := ⟨he1, he2⟩
      refine ⟨_, timeToMinutes_digits a b d e (by simp only [isDigitChar]; simp; omega)
        (by simp only [isDigitChar]; simp; omega) (by simp only [isDigitChar]; simp; omega)
        (by simp only [isDigitChar]; simp; omega), ?_⟩
      rw [minutesToTime_digits _ _ (by omega) (by omega) (by omega) (by omega)]
      have eH : (10 * ((a.toNat : Int) - 48) + ((b.toNat : Int) - 48)).toNat / 10 =
          a.toNat - 48 := by omega
      have eH2 : (10 * ((a.toNat : Int) - 48) + ((b.toNat : Int) - 48)).toNat % 10 =
          b.toNat - 48 := by omega
      have eM : (10 * ((d.toNat : Int) - 48) + ((e.toNat : Int) - 48)).toNat / 10 =
          d.toNat - 48 := by omega
      have eM2 : (10 * ((d.toNat : Int) - 48) + ((e.toNat : Int) - 48)).toNat % 10 =
          e.toNat - 48 := by omega
      rw [eH, eH2, eM, eM2,
        digitChar_toNat_eq a hA.1 hA.2, digitChar_toNat_eq b hB.1 hB.2,
        digitChar_toNat_eq d hD.1 (by omega), digitChar_toNat_eq e hE.1 hE.2]
    · simp [isValidTimeFormat] at hv

/-- Witness for C9: both directions at concrete inputs (`570` and
`"09:30"`). -/
theorem timeToMinutes_minutesToTime_inverse_witness :
    timeToMinutes (minutesToTime 570) = some 570 ∧
    ∃ v, timeToMinutes ['0', '9', ':', '3', '0'] = some v ∧
      minutesToTime v = ['0', '9', ':', '3', '0'] :=
  ⟨timeToMinutes_minutesToTime_inverse.1 570 (by decide) (by decide),
    timeToMinutes_minutesToTime_inverse.2 ['0', '9', ':', '3', '0'] (by decide)⟩

-- ============================================================
-- C10: termination of the split-scheduling loop
-- ============================================================

/-- `countP` drops strictly when the predicate weakens pointwise and
fails on some member that satisfied the stronger one. -/
theorem countP_lt_of_mem {α : Type} (l : List α) (p q : α → Bool)
    (hmono : ∀ x ∈ l, p x = true → q x = true) (x : α) (hx : x ∈ l)
    (hqx : q x = true) (hpx : p x = false) : l.countP p < l.countP q := by
  induction l with
  | nil => simp at hx
  | cons a t ih =>
    rcases List.mem_cons.mp hx with rfl | hx
    · rw [List.countP_cons, List.countP_cons, hpx, hqx]
      have hle : t.countP p ≤ t.countP q :=
        List.countP_mono_left (fun y hy hp => hmono y (List.mem_cons_of_mem _ hy) hp)
      simp
      omega
    · have hlt := ih (fun y hy hp => hmono y (List.mem_cons_of_mem _ hy) hp) hx
      rw [List.countP_cons, List.countP_cons]
      by_cases hpa : p a = true
      · have hqa : q a = true := hmono a (by simp) hpa
        rw [hpa, hqa]
        simpa using hlt
      · have hpa' : p a = false := by simpa using hpa
        rw [hpa']
        cases hqa : q a <;> simp <;> omega

/-- Fuel sufficiency for the split-scheduling loop: one unit of fuel per
block still active at the cursor, plus one, always completes.  Each pass
through the overlapping branch moves the cursor to the end of the found
block, which strictly shrinks the set of blocks with `cursor < end`. -/
theorem scheduleLoop_isSome (goal : Goal) (blocks : List PreparedBlock) :
    ∀ (fuel : Nat) (rem cur : Int) (part : Nat) (total : Int) (sched : List ScheduleEntry),
      blocks.countP (fun b => decide (cur < b.stop)) < fuel →
      (scheduleLoop goal blocks fuel rem cur part total sched).isSome = true := by
  intro fuel
  induction fuel with
  | zero => intro rem cur part total sched h; omega
  | succ n ih =>
    intro rem cur part total sched h
    rw [scheduleLoop]
    by_cases h0 : 0 < rem
    · rw [if_pos h0]
      cases hfind : findOverlapping blocks cur (cur + rem) with
      | none => simp [hfind]
      | some ob =>
        have hfind' : blocks.find?
            (fun block => decide (cur < block.stop ∧ block.start ≤ cur + rem)) = some ob := hfind
        have hmem : ob ∈ blocks := List.mem_of_find?_eq_some hfind'
        have hpred : cur < ob.stop ∧ ob.start ≤ cur + rem := by
          have hp := List.find?_some hfind'
          simpa using hp
        have hcount : blocks.countP (fun b => decide (ob.stop < b.stop)) < n := by
          have hlt := countP_lt_of_mem blocks (fun b => decide (ob.stop < b.stop))
            (fun b => decide (cur < b.stop))
            (fun y _ hy => by
              simp only [decide_eq_true_eq] at hy ⊢
              omega)
            ob hmem (by simp only [decide_eq_true_eq]; exact hpred.1) (by simp)
          omega
        simp only [hfind]
        by_cases htb : 0 < ob.start - cur
        · rw [if_pos htb]
          exact ih _ _ _ _ _ hcount
        · rw [if_neg htb]
          exact ih _ _ _ _ _ hcount
    · rw [if_neg h0]
      simp

/-- C10: for every goal and finite block list whose blocks satisfy
`start < end`, `scheduleGoalWithSplitting` (the `while` loop run with
`blocks.length + 1` fuel) terminates: every iteration either finishes
the remaining duration or advances the cursor past the end of the block
it found, so that block can never be selected again, bounding the
iterations by the number of blocks plus one. -/
theorem scheduleGoalWithSplitting_terminates (goal : Goal) (currentTime : Int)
    (fixedBlocks : List PreparedBlock) (schedule : List ScheduleEntry)
    (_hwf : ∀ b ∈ fixedBlocks, b.start < b.stop) :
    (scheduleGoalWithSplitting goal currentTime fixedBlocks schedule).isSome = true := by
  apply scheduleLoop_isSome
  have := List.countP_le_length (l := fixedBlocks) (p := fun b => decide (currentTime < b.stop))
  omega

/-- Witness for C10 at a concrete goal and block list. -/
theorem scheduleGoalWithSplitting_terminates_witness :
    (scheduleGoalWithSplitting sampleGoal 540 [⟨"Lunch", 720, 780⟩] []).isSome = true :=
  scheduleGoalWithSplitting_terminates sampleGoal 540 [⟨"Lunch", 720, 780⟩] [] (by decide)

-- ============================================================
-- C2: duration conservation
-- ============================================================

theorem taskMinutes_append (l1 l2 : List ScheduleEntry) :
    taskMinutes (l1 ++ l2) = taskMinutes l1 + taskMinutes l2 := by
  simp [taskMinutes]

theorem taskMinutes_task (goal : Goal) (start dur : Int) (part : Nat) :
    taskMinutes [createTask goal start dur part] = dur := by
  simp [taskMinutes, createTask]

theorem taskMinutes_block (b : PreparedBlock) :
    taskMinutes [createFixedBlockEntry b] = 0 := by
  simp [taskMinutes, createFixedBlockEntry]

/-- The loop schedules exactly the remaining duration: the new entries
it appends are the old schedule plus segments whose task durations sum
to `rem`, and the returned counter grows by `rem`. -/
theorem scheduleLoop_conserves (goal : Goal) (blocks : List PreparedBlock) :
    ∀ (fuel : Nat) (rem cur : Int) (part : Nat) (total : Int) (sched : List ScheduleEntry)
      (res : SplitResult), 0 ≤ rem →
      scheduleLoop goal blocks fuel rem cur part total sched = some res →
      ∃ newEntries, res.schedule = sched ++ newEntries ∧ taskMinutes newEntries = rem ∧
        res.minutesScheduled = total + rem := by
  intro fuel
  induction fuel with
  | zero =>
    intro rem cur part total sched res h0 hrun
    rw [scheduleLoop] at hrun
    by_cases hpos : 0 < rem
    · rw [if_pos hpos] at hrun
      exact absurd hrun (by simp)
    · rw [if_neg hpos] at hrun
      refine ⟨[], ?_, ?_, ?_⟩ <;> cases hrun <;> simp [taskMinutes] <;> omega
  | succ n ih =>
    intro rem cur part total sched res h0 hrun
    rw [scheduleLoop] at hrun
    by_cases hpos : 0 < rem
    · rw [if_pos hpos] at hrun
      cases hfind : findOverlapping blocks cur (cur + rem) with
      | none =>
        simp only [hfind] at hrun
        cases hrun
        refine ⟨[createTask goal cur rem part], rfl, taskMinutes_task goal cur rem part, by simp⟩
      | some ob =>
        have hfind' : blocks.find?
            (fun block => decide (cur < block.stop ∧ block.start ≤ cur + rem)) = some ob := hfind
        have hpred : cur < ob.stop ∧ ob.start ≤ cur + rem := by
          have hp := List.find?_some hfind'
          simpa using hp
        simp only [hfind] at hrun
        by_cases htb : 0 < ob.start - cur
        · rw [if_pos htb] at hrun
          have hrem' : 0 ≤ rem - (ob.start - cur) := by omega
          obtain ⟨newTail, hsched, hsum, htotal⟩ := ih _ _ _ _ _ _ hrem' hrun
          refine ⟨[createTask goal cur (ob.start - cur) part] ++
            [createFixedBlockEntry ob] ++ newTail, ?_, ?_, ?_⟩
          · rw [hsched]
            simp
          · rw [taskMinutes_append, taskMinutes_append, taskMinutes_task, taskMinutes_block,
              hsum]
            omega
          · omega
        · rw [if_neg htb] at hrun
          obtain ⟨newTail, hsched, hsum, htotal⟩ := ih _ _ _ _ _ _ h0 hrun
          refine ⟨[createFixedBlockEntry ob] ++ newTail, ?_, ?_, ?_⟩
          · rw [hsched]
            simp
          · rw [taskMinutes_append, taskMinutes_block, hsum]
            omega
          · omega
    · rw [if_neg hpos] at hrun
      refine ⟨[], ?_, ?_, ?_⟩ <;> cases hrun <;> simp [taskMinutes] <;> omega

/-- C2: for every goal with positive `dailyMinutes`, whatever the fixed
blocks, the split-scheduling call succeeds and the task entries it emits
for that goal (its parts, fixed-block entries excluded) have durations
summing exactly to `goal.metric.dailyMinutes`. -/
theorem scheduleGoalWithSplitting_conserves (goal : Goal) (currentTime : Int)
    (fixedBlocks : List PreparedBlock) (schedule : List ScheduleEntry)
    (hpos : 0 < goal.metric.dailyMinutes) :
    ∃ res, scheduleGoalWithSplitting goal currentTime fixedBlocks schedule = some res ∧
      ∃ newEntries, res.schedule = schedule ++ newEntries ∧
        taskMinutes newEntries = goal.metric.dailyMinutes := by
  have hsome : (scheduleGoalWithSplitting goal currentTime fixedBlocks schedule).isSome = true := by
    apply scheduleLoop_isSome
    have := List.countP_le_length (l := fixedBlocks)
      (p := fun b => decide (currentTime < b.stop))
    omega
  obtain ⟨res, hres⟩ := Option.isSome_iff_exists.mp hsome
  obtain ⟨newEntries, hsched, hsum, _⟩ :=
    scheduleLoop_conserves goal fixedBlocks _ _ _ _ _ _ res (by omega) hres
  exact ⟨res, hres, newEntries, hsched, hsum⟩

/-- Witness for C2: a 300-minute goal split around a lunch block. -/
theorem scheduleGoalWithSplitting_conserves_witness :
    ∃ res, scheduleGoalWithSplitting sampleGoal 540 [⟨"Lunch", 720, 780⟩] [] = some res ∧
      ∃ newEntries, res.schedule = [] ++ newEntries ∧
        taskMinutes newEntries = sampleGoal.metric.dailyMinutes :=
  scheduleGoalWithSplitting_conserves sampleGoal 540 [⟨"Lunch", 720, 780⟩] [] (by decide)

-- ============================================================
-- C1: no-overlap / sortedness of the generated schedule
-- ============================================================

theorem entriesOrdered_snoc (l : List ScheduleEntry) (e : ScheduleEntry)
    (h : entriesOrdered l) (hle : ∀ x ∈ l, x.endM ≤ e.startM) :
    entriesOrdered (l ++ [e]) := by
  rw [entriesOrdered, List.pairwise_append]
  refine ⟨h, List.pairwise_singleton _ _, ?_⟩
  intro a ha b hb
  simp only [List.mem_singleton] at hb
  subst hb
  exact hle a ha

theorem SchedInv_nil (blocks : List PreparedBlock) (cur : Int) : SchedInv blocks [] cur := by
  refine ⟨List.Pairwise.nil, ?_, ?_, ?_⟩ <;> simp [entriesPositive]

/-- Preservation of the scheduling invariant by the split-scheduling
loop, assuming non-degenerate, pairwise disjoint blocks. -/
theorem scheduleLoop_inv (goal : Goal) (blocks : List PreparedBlock)
    (hwf : ∀ b ∈ blocks, b.start < b.stop)
    (hdisj : blocks.Pairwise (fun a b => a.stop ≤ b.start ∨ b.stop ≤ a.start)) :
    ∀ (fuel : Nat) (rem cur : Int) (part : Nat) (total : Int) (sched : List ScheduleEntry)
      (res : SplitResult),
      SchedInv blocks sched cur →
      scheduleLoop goal blocks fuel rem cur part total sched = some res →
      SchedInv blocks res.schedule res.newCurrentTime := by
  have hsym : Symmetric (fun a b : PreparedBlock => a.stop ≤ b.start ∨ b.stop ≤ a.start) :=
    fun _ _ h => Or.symm h
  intro fuel
  induction fuel with
  | zero =>
    intro rem cur part total sched res hinv hrun
    rw [scheduleLoop] at hrun
    by_cases hpos : 0 < rem
    · rw [if_pos hpos] at hrun
      exact absurd hrun (by simp)
    · rw [if_neg hpos] at hrun
      cases hrun
      exact hinv
  | succ n ih =>
    intro rem cur part total sched res hinv hrun
    obtain ⟨hord, hposi, hend, hact⟩ := hinv
    rw [scheduleLoop] at hrun
    by_cases hpos : 0 < rem
    · rw [if_pos hpos] at hrun
      cases hfind : findOverlapping blocks cur (cur + rem) with
      | none =>
        simp only [hfind] at hrun
        cases hrun
        have hnone := List.find?_eq_none.mp (show blocks.find?
          (fun block => decide (cur < block.stop ∧ block.start ≤ cur + rem)) = none from hfind)
        have hb : BUFFER_MINUTES = 10 := rfl
        show SchedInv blocks (sched ++ [createTask goal cur rem part])
          (cur + rem + BUFFER_MINUTES)
        refine ⟨?_, ?_, ?_, ?_⟩
        · exact entriesOrdered_snoc sched _ hord (fun x hx => hend x hx)
        · intro e he
          rcases List.mem_append.mp he with he | he
          · exact hposi e he
          · simp only [List.mem_singleton] at he
            subst he
            simp only [createTask]
            omega
        · intro e he
          rcases List.mem_append.mp he with he | he
          · have := hend e he
            omega
          · simp only [List.mem_singleton] at he
            subst he
            simp only [createTask]
            omega
        · intro b hbmem hblt e he
          have hnb := hnone b hbmem
          simp only [decide_eq_true_eq, not_and, not_le] at hnb
          rcases List.mem_append.mp he with he | he
          · have h1 := hend e he
            by_cases hc : cur < b.stop
            · have := hnb hc
              omega
            · omega
          · simp only [List.mem_singleton] at he
            subst he
            simp only [createTask]
            by_cases hc : cur < b.stop
            · have := hnb hc
              omega
            · omega
      | some ob =>
        have hfind' : blocks.find?
            (fun block => decide (cur < block.stop ∧ block.start ≤ cur + rem)) = some ob := hfind
        have hmem : ob ∈ blocks := List.mem_of_find?_eq_some hfind'
        have hpred : cur < ob.stop ∧ ob.start ≤ cur + rem := by
          have hp := List.find?_some hfind'
          simpa using hp
        have hobwf : ob.start < ob.stop := hwf ob hmem
        have hdisj2 : ∀ b ∈ blocks, ob.stop < b.stop → ob.stop ≤ b.start := by
          intro b hb hlt
          by_cases he : b = ob
          · subst he
            omega
          · have hpair := hdisj.forall hsym hb hmem he
            rcases hpair with hpair | hpair
            · omega
            · exact hpair
        simp only [hfind] at hrun
        by_cases htb : 0 < ob.start - cur
        · rw [if_pos htb] at hrun
          refine ih _ _ _ _ _ _ ?_ hrun
          have hend2 : ∀ x ∈ (sched ++ [createTask goal cur (ob.start - cur) part]) ++
              [createFixedBlockEntry ob], x.endM ≤ ob.stop := by
            intro x hx
            rcases List.mem_append.mp hx with hx | hx
            · rcases List.mem_append.mp hx with hx | hx
              · have := hend x hx
                omega
              · simp only [List.mem_singleton] at hx
                subst hx
                simp only [createTask]
                omega
            · simp only [List.mem_singleton] at hx
              subst hx
              simp only [createFixedBlockEntry]
              omega
          refine ⟨?_, ?_, hend2, ?_⟩
          · refine entriesOrdered_snoc _ _ (entriesOrdered_snoc _ _ hord ?_) ?_
            · intro x hx
              simp only [createTask]
              exact hend x hx
            · intro x hx
              simp only [createFixedBlockEntry]
              rcases List.mem_append.mp hx with hx | hx
              · have := hend x hx
                omega
              · simp only [List.mem_singleton] at hx
                subst hx
                simp only [createTask]
                omega
          · intro e he
            rcases List.mem_append.mp he with he | he
            · rcases List.mem_append.mp he with he | he
              · exact hposi e he
              · simp only [List.mem_singleton] at he
                subst he
                simp only [createTask]
                omega
            · simp only [List.mem_singleton] at he
              subst he
              simp only [createFixedBlockEntry]
              omega
          · intro b hbmem hblt e he
            have hstep := hdisj2 b hbmem hblt
            have := hend2 e he
            omega
        · rw [if_neg htb] at hrun
          refine ih _ _ _ _ _ _ ?_ hrun
          have hclear : ∀ x ∈ sched, x.endM ≤ ob.start := hact ob hmem hpred.1
          have hend2 : ∀ x ∈ sched ++ [createFixedBlockEntry ob], x.endM ≤ ob.stop := by
            intro x hx
            rcases List.mem_append.mp hx with hx | hx
            · have := hend x hx
              omega
            · simp only [List.mem_singleton] at hx
              subst hx
              simp only [createFixedBlockEntry]
              omega
          refine ⟨?_, ?_, hend2, ?_⟩
          · refine entriesOrdered_snoc _ _ hord ?_
            intro x hx
            simp only [createFixedBlockEntry]
            exact hclear x hx
          · intro e he
            rcases List.mem_append.mp he with he | he
            · exact hposi e he
            · simp only [List.mem_singleton] at he
              subst he
              simp only [createFixedBlockEntry]
              omega
          · intro b hbmem hblt e he
            have hstep := hdisj2 b hbmem hblt
            have := hend2 e he
            omega
    · rw [if_neg hpos] at hrun
      cases hrun
      exact ⟨hord, hposi, hend, hact⟩

/-- The goal fold always succeeds (fuel sufficiency per goal). -/
theorem scheduleAll_isSome (blocks : List PreparedBlock) :
    ∀ (goals : List Goal) (cur : Int) (sched : List ScheduleEntry) (total : Int),
      (scheduleAll goals cur blocks sched total).isSome = true := by
  intro goals
  induction goals with
  | nil =>
    intro cur sched total
    simp [scheduleAll]
  | cons g gs ih =>
    intro cur sched total
    have hsome : (scheduleGoalWithSplitting g cur blocks sched).isSome = true := by
      apply scheduleLoop_isSome
      have := List.countP_le_length (l := blocks) (p := fun b => decide (cur < b.stop))
      omega
    obtain ⟨res, hres⟩ := Option.isSome_iff_exists.mp hsome
    rw [scheduleAll]
    simp only [hres]
    exact ih _ _ _

/-- Preservation of the scheduling invariant by the goal fold. -/
theorem scheduleAll_inv (blocks : List PreparedBlock)
    (hwf : ∀ b ∈ blocks, b.start < b.stop)
    (hdisj : blocks.Pairwise (fun a b => a.stop ≤ b.start ∨ b.stop ≤ a.start)) :
    ∀ (goals : List Goal) (cur : Int) (sched : List ScheduleEntry) (total : Int)
      (out : Int × List ScheduleEntry × Int),
      SchedInv blocks sched cur →
      scheduleAll goals cur blocks sched total = some out →
      SchedInv blocks out.2.1 out.1 := by
  intro goals
  induction goals with
  | nil =>
    intro cur sched total out hinv hrun
    rw [scheduleAll] at hrun
    cases hrun
    exact hinv
  | cons g gs ih =>
    intro cur sched total out hinv hrun
    rw [scheduleAll] at hrun
    cases hres : scheduleGoalWithSplitting g cur blocks sched with
    | none => rw [hres] at hrun; exact absurd hrun (by simp)
    | some res =>
      rw [hres] at hrun
      have hres' : scheduleLoop g blocks (blocks.length + 1) g.metric.dailyMinutes
          cur 1 0 sched = some res := hres
      have hinv' := scheduleLoop_inv g blocks hwf hdisj _ _ _ _ _ _ res hinv hres'
      exact ih _ _ _ _ hinv' hrun

/-- A chain-ordered schedule of positive-extent entries satisfies the
claim's pairwise no-overlap/sortedness property. -/
theorem noOverlapSorted_of_inv (l : List ScheduleEntry)
    (hord : entriesOrdered l) (hpos : entriesPositive l) : noOverlapSorted l := by
  intro i j hi hj hne hle
  have hp := List.pairwise_iff_get.mp hord
  rcases Nat.lt_trichotomy i j with hij | hij | hij
  · exact hp ⟨i, hi⟩ ⟨j, hj⟩ hij
  · exact absurd hij hne
  · have h1 := hp ⟨j, hj⟩ ⟨i, hi⟩ hij
    have h2 := hpos (l.get ⟨j, hj⟩) (l.get_mem _ _)
    omega

/-- `prepareFixedBlocks` preserves non-degeneracy and pairwise
disjointness of the configured blocks (filtering is a sublist, the
minute translation is a map, and sorting is a permutation). -/
theorem prepareFixedBlocks_wf (config : Config) (todayDate : ISODate) (dayName : String)
    (hwf : ∀ b ∈ config.fixedBlocks, b.startTime < b.endTime)
    (hdisj : config.fixedBlocks.Pairwise
      (fun a b => a.endTime ≤ b.startTime ∨ b.endTime ≤ a.startTime)) :
    (∀ b ∈ prepareFixedBlocks config todayDate dayName, b.start < b.stop) ∧
      (prepareFixedBlocks config todayDate dayName).Pairwise
        (fun a b => a.stop ≤ b.start ∨ b.stop ≤ a.start) := by
  have hperm := List.perm_insertionSort
    (fun a b : PreparedBlock => a.start ≤ b.start)
    ((config.fixedBlocks.filter
        (fun block => blockActiveToday block todayDate dayName)).map
      (fun block => { name := block.name, start := block.startTime, stop := block.endTime }))
  constructor
  · intro b hb
    have hb' := hperm.mem_iff.mp hb
    obtain ⟨fb, hfb, rfl⟩ := List.mem_map.mp hb'
    exact hwf fb (List.mem_of_mem_filter hfb)
  · have hsym : ∀ {x y : PreparedBlock},
        (x.stop ≤ y.start ∨ y.stop ≤ x.start) → (y.stop ≤ x.start ∨ x.stop ≤ y.start) :=
      fun h => Or.symm h
    have hfiltered : (config.fixedBlocks.filter
        (fun block => blockActiveToday block todayDate dayName)).Pairwise
        (fun a b => a.endTime ≤ b.startTime ∨ b.endTime ≤ a.startTime) :=
      hdisj.sublist (List.filter_sublist _)
    have hmapped := List.Pairwise.map
      (f := fun block : FixedBlock =>
        ({ name := block.name, start := block.startTime, stop := block.endTime } : PreparedBlock))
      (R := fun a b => a.endTime ≤ b.startTime ∨ b.endTime ≤ a.startTime)
      (S := fun a b : PreparedBlock => a.stop ≤ b.start ∨ b.stop ≤ a.start)
      (fun a b h => h) hfiltered
    exact (List.Perm.pairwise_iff hsym hperm).mpr hmapped

/-- C1 counterexample: with the two individually well-formed but
mutually overlapping daily blocks of `overlapConfig`, the generated
schedule emits both block entries overlapping each other, refuting the
claim as stated (which assumes only `startTime < endTime` per block). -/
theorem generateTodaysSchedule_overlap_cex :
    ¬ C1Property [sampleGoal] overlapConfig 20000 "Monday" := by
  intro h
  have h2 := h (by decide) _ rfl
  exact absurd (h2 1 2 (by decide) (by decide) (by decide) (by decide)) (by decide)

/-- C1 (amended): for every goal list and every config whose fixed
blocks satisfy `startTime < endTime` **and are pairwise
non-overlapping**, the generated schedule exists and its entries are
pairwise non-overlapping and sorted ascending by start time. -/
theorem generateTodaysSchedule_noOverlap (goals : List Goal) (config : Config)
    (todayDate : ISODate) (dayName : String)
    (hwf : ∀ b ∈ config.fixedBlocks, b.startTime < b.endTime)
    (hdisj : config.fixedBlocks.Pairwise
      (fun a b => a.endTime ≤ b.startTime ∨ b.endTime ≤ a.startTime)) :
    ∃ r, generateTodaysSchedule goals config todayDate dayName = some r ∧
      noOverlapSorted r.tasks := by
  obtain ⟨hbwf, hbdisj⟩ := prepareFixedBlocks_wf config todayDate dayName hwf hdisj
  have hsome := scheduleAll_isSome (prepareFixedBlocks config todayDate dayName)
    (sortGoalsByPriorityAndDuration
      (goals.filter (fun g => shouldGenerateTaskToday g todayDate dayName)))
    config.startTime [] 0
  obtain ⟨out, hout⟩ := Option.isSome_iff_exists.mp hsome
  obtain ⟨ct, sched, tot⟩ := out
  have hinv := scheduleAll_inv (prepareFixedBlocks config todayDate dayName) hbwf hbdisj
    _ _ _ _ _ (SchedInv_nil _ _) hout
  refine ⟨⟨sched, config.startTime, ct - BUFFER_MINUTES, tot,
    config.availableHours * 60, decide (config.availableHours * 60 < tot)⟩, ?_, ?_⟩
  · simp only [generateTodaysSchedule, hout]
  · exact noOverlapSorted_of_inv sched hinv.1 hinv.2.1

/-- Witness for the amended C1: one goal scheduled around a single lunch
block. -/
theorem generateTodaysSchedule_noOverlap_witness :
    ∃ r, generateTodaysSchedule [sampleGoal] lunchConfig 20000 "Monday" = some r ∧
      noOverlapSorted r.tasks :=
  generateTodaysSchedule_noOverlap [sampleGoal] lunchConfig 20000 "Monday"
    (by decide) (by decide)

-- ============================================================
-- C7: no eligible goals
-- ============================================================

/-- C7: when no goal is eligible today, the schedule is empty while
`startTime` is the configured start and `endTime` is the configured
start minus the 10-minute buffer (the source's unconditional
`cursor - BUFFER_MINUTES`, the documented quirk). -/
theorem generateTodaysSchedule_no_eligible (goals : List Goal) (config : Config)
    (todayDate : ISODate) (dayName : String)
    (h : ∀ g ∈ goals, shouldGenerateTaskToday g todayDate dayName = false) :
    ∃ r, generateTodaysSchedule goals config todayDate dayName = some r ∧
      r.tasks = [] ∧ r.startTime = config.startTime ∧
      r.endTime = config.startTime - BUFFER_MINUTES := by
  have hfilter : goals.filter (fun g => shouldGenerateTaskToday g todayDate dayName) = [] := by
    rw [List.filter_eq_nil_iff]
    intro g hg
    simp [h g hg]
  refine ⟨⟨[], config.startTime, config.startTime - BUFFER_MINUTES, 0,
    config.availableHours * 60, decide (config.availableHours * 60 < 0)⟩, ?_, rfl, rfl, rfl⟩
  simp [generateTodaysSchedule, hfilter, sortGoalsByPriorityAndDuration, scheduleAll,
    List.insertionSort]

/-- Witness for C7: a store whose only goal was already completed
today. -/
theorem generateTodaysSchedule_no_eligible_witness :
    ∃ r, generateTodaysSchedule [doneGoal] lunchConfig 20000 "Monday" = some r ∧
      r.tasks = [] ∧ r.startTime = lunchConfig.startTime ∧
      r.endTime = lunchConfig.startTime - BUFFER_MINUTES :=
  generateTodaysSchedule_no_eligible [doneGoal] lunchConfig 20000 "Monday" (by decide)
